import Mathlib

/-!
Verification of the image-retrieval pipeline of HubspotImageBE.

The repository has two variants of the pipeline:
* `app.py` — dataframe-based (pandas); columns are lists of optional cells
  (a missing value, pandas NaN, is `none`); batch download writes to disk,
  and a streaming generator emits server-sent events.
* `api/index.py` — CSV-row based (list of rows of strings), serverless.

External collaborators are modelled as parameters:
* the remote fetcher `download_file_from_hubspot` (two network hops) is an
  oracle `fetch : String → Option FetchInfo`;
* werkzeug's `secure_filename` is an oracle `sanitize : String → String`;
* the spreadsheet parsers (pandas `read_csv` / `read_excel`, `csv.reader`)
  are oracles delivering the parsed table, `none` standing for a parse
  exception;
* filesystem operations (directory creation, file writes) are modelled as
  succeeding.

String-returning Python primitives (`strip`, `split`, `os.path.splitext`,
`startswith`, `endswith`) are embedded over `List Char`; Python's
`str.strip()` with no argument strips whitespace from both ends, modelled
with `Char.isWhitespace` (the repository's cell values only involve ASCII
whitespace).
-/

/-! ## UrlResolver: `get_file_id_from_url` and `get_extension_from_url` -/

/-- Python `s.strip("/")`: remove `/` characters from both ends. -/
def pyStripChar (c : Char) (l : List Char) : List Char :=
  ((l.dropWhile (· == c)).reverse.dropWhile (· == c)).reverse

/-- The path marker segment `"signed-url-redirect"` of `get_file_id_from_url`. -/
def SURR : List Char := "signed-url-redirect".toList

/-- The segments of a URL path: `parsed.path.strip("/").split("/")`
(Python's `split` on an explicit separator agrees with `List.splitOn`,
including `"".split("/") == [""]`). -/
def urlParts (path : List Char) : List (List Char) :=
  (pyStripChar '/' path).splitOn '/'

/-- `get_file_id_from_url` from `app.py` lines 44–53 (identical in
`api/index.py` lines 38–48), taken at the boundary of `urllib.parse.urlparse`:
the argument is the URL's path component.  `parts[idx + 1]` with the
`IndexError` handler returning `None` is exactly `List.getElem?`. -/
def get_file_id_from_url (path : List Char) : Option (List Char) :=
  let parts := urlParts path
  if SURR ∈ parts then
    parts[parts.indexOf SURR + 1]?
  else
    none

/-- The component of a path after the last `/` (CPython `splitext` locates
the extension dot only past the last separator). -/
def basenameOf (p : List Char) : List Char :=
  (p.splitOn '/').getLastD []

/-- The extension part `os.path.splitext(p)[1]`: the suffix from the last
dot of the basename, provided some character strictly before that dot in
the basename is not itself a dot (CPython's leading-dots rule, which gives
`".bashrc"` no extension); otherwise empty. -/
def splitextExt (p : List Char) : List Char :=
  let b := basenameOf p
  let pre := b.reverse.takeWhile (· != '.')
  if pre.length = b.length then []
  else if (b.take (b.length - pre.length - 1)).any (· != '.') then
    '.' :: pre.reverse
  else []

/-- `get_extension_from_url` from `app.py` lines 55–59 (identical in
`api/index.py` lines 50–55), at the `urlparse` boundary: the argument is
the URL's path.  `lstrip('.')` removes all leading dots. -/
def get_extension_from_url (path : List Char) : List Char :=
  let ext := (splitextExt path).dropWhile (· == '.')
  if ext = [] then "jpg".toList else ext

/-- `os.path.splitext(filename)[1].lower()` as used by both upload
endpoints on the sanitized upload filename. -/
def fileExtension (filename : String) : String :=
  String.mk ((splitextExt filename.toList).map Char.toLower)

/-- Python `s.strip()` with no argument: whitespace removed from both
ends. -/
def pytrim (s : String) : String :=
  String.mk (((s.toList.dropWhile Char.isWhitespace).reverse.dropWhile
    Char.isWhitespace).reverse)

/-- Python `s.startswith(pre)`. -/
def pyStartsWith (s pre : String) : Bool :=
  pre.toList.isPrefixOf s.toList

/-- Python `s.endswith(suf)`. -/
def pyEndsWith (s suf : String) : Bool :=
  suf.toList.isSuffixOf s.toList

/-! ## Shared pipeline pieces -/

/-- What a successful `download_file_from_hubspot` returns: base64 data,
extension inferred from the signed URL, and byte length.  The fetcher
itself (two authenticated network hops) is an oracle in this development. -/
structure FetchInfo where
  data : String
  extension : String
  size : Nat
deriving Repr, DecidableEq

/-- Python `str(n).zfill(3)` for the (non-negative) counter. -/
def zfill (w : Nat) (s : String) : String :=
  if w ≤ s.length then s else String.mk (List.replicate (w - s.length) '0') ++ s

/-- The filename both variants build for a successful download:
`f"{secure_filename(col)}_{str(count).zfill(3)}.{extension}"`. -/
def imageFilename (sanitize : String → String) (col : String) (count : Nat)
    (ext : String) : String :=
  sanitize col ++ "_" ++ zfill 3 (toString count) ++ "." ++ ext

/-- Python dict assignment `d[key] = value` on an association list whose
keys are unique: overwrite the existing binding or append a new one. -/
def pyDictSet {α : Type} (registry : List (String × α)) (key : String)
    (value : α) : List (String × α) :=
  if registry.any (fun p => p.1 = key) then
    registry.map (fun p => if p.1 = key then (key, value) else p)
  else
    registry ++ [(key, value)]

/-- The soft error message recorded for a selected column that the table
does not have. -/
def colNotFoundMsg (col : String) : String :=
  "Column '" ++ col ++ "' not found in file"

/-! ## The dataframe variant (`app.py`) -/

/-- A parsed table as `app.py` holds it (a pandas dataframe): column names
in order, and per column the list of cells, `none` being a missing value
(NaN).  `colData` is aligned positionally with `columns`. -/
structure DataFrame where
  columns : List String
  colData : List (List (Option String))
deriving Repr, DecidableEq

/-- `df[col].dropna()`: the non-missing cells of the (first) column named
`col`, in row order. -/
def dfDropna (df : DataFrame) (col : String) : List String :=
  (df.colData.getD (df.columns.indexOf col) []).filterMap id

/-- One successful download of the batch endpoint.  The source embeds the
sequence number only inside `filename`; `seq` records the counter value
the source used to build that filename. -/
structure Download where
  column : String
  seq : Nat
  filename : String
  size : Nat
deriving Repr, DecidableEq

/-- The accumulator of `download_images` in `app.py`: the shared counter
`count`, the `successful_downloads` list and the `errors` list. -/
structure BatchSt where
  count : Nat
  successes : List Download
  errors : List String
deriving Repr, DecidableEq

/-- One data cell of `download_images` (`app.py` lines 326–358): skip a
blank cell; otherwise increment the counter, fetch, and on success record
the download under the current counter, on failure decrement the counter
back and record an error.  The file write is modelled as succeeding. -/
def appProcessCell (fetch : String → Option FetchInfo) (sanitize : String → String)
    (col : String) (st : BatchSt) (cell : String) : BatchSt :=
  if pytrim cell = "" then st
  else
    let url := pytrim cell
    let count := st.count + 1
    match fetch url with
    | some info =>
        { count := count,
          successes := st.successes ++
            [⟨col, count, imageFilename sanitize col count info.extension, info.size⟩],
          errors := st.errors }
    | none =>
        { count := count - 1,
          successes := st.successes,
          errors := st.errors ++ ["Failed to download from " ++ url] }

/-- One selected column of `download_images` (`app.py` lines 313–358): a
column absent from the table yields a soft error and nothing else;
otherwise its non-missing cells are processed in row order.  Directory
creation is modelled as succeeding.  Note the counter `count` is NOT reset
here: `app.py` initialises it once for the whole run (line 309). -/
def appProcessColumn (fetch : String → Option FetchInfo) (sanitize : String → String)
    (df : DataFrame) (st : BatchSt) (col : String) : BatchSt :=
  if col ∈ df.columns then
    (dfDropna df col).foldl (appProcessCell fetch sanitize col) st
  else
    { st with errors := st.errors ++ [colNotFoundMsg col] }

/-- The JSON body a download endpoint answers with (both variants): the
success shape carries `message` and the capped error list, the soft
failure shape carries `error`.  `download_path` of `app.py` is omitted. -/
structure BatchResponse where
  success : Bool
  total_images : Nat
  message : Option String
  error : Option String
  errors : List String
deriving Repr, DecidableEq

/-- The uniform soft failure of a zero-result run. -/
def tryDifferentColumns : BatchResponse :=
  { success := false, total_images := 0, message := none,
    error := some "Please try different columns.", errors := [] }

/-- The column loop of `download_images` in `app.py` (lines 309–358): the
counter, success list and error list all start empty once for the whole
run. -/
def appRun (fetch : String → Option FetchInfo) (sanitize : String → String)
    (df : DataFrame) (selected_columns : List String) : BatchSt :=
  selected_columns.foldl (appProcessColumn fetch sanitize df) ⟨0, [], []⟩

/-- `download_images` of `app.py` (lines 263–380).  `Except.error` is a
fatal 4xx precondition failure; `Except.ok` is the structured outcome.
`filename = none` models a request body without the field; Python's
`not filename` is also true for the empty string. -/
def app_download_images (fetch : String → Option FetchInfo)
    (sanitize : String → String) (registry : List (String × DataFrame))
    (filename : Option String) (selected_columns : List String)
    (downloadPath : String) : Except String BatchResponse :=
  if filename.getD "" = "" ∨ selected_columns = [] then
    .error "Missing required parameters"
  else if downloadPath ≠ "downloads" ∧ downloadPath = "" then
    .error "Download path is required"
  else
    match registry.lookup (filename.getD "") with
    | none => .error "File not found. Please upload the file again."
    | some df =>
        let st := appRun fetch sanitize df selected_columns
        if st.successes ≠ [] then
          .ok { success := true, total_images := st.successes.length,
                message := some (toString st.successes.length ++
                  " images downloaded successfully to Downloads/hubspot-images/"),
                error := none, errors := st.errors.take 10 }
        else
          .ok tryDifferentColumns

/-! ## The streaming variant (`app.py`, `generate_images_stream`) -/

/-- The typed server-sent events of the streaming endpoint. -/
inductive Event where
  | start (total : Nat)
  | progress (current total : Nat) (column : String)
  | image (column filename data : String) (size : Nat) (current total : Nat)
  | error (message : String)
  | complete (total_downloaded : Nat) (errors : List String)
deriving Repr, DecidableEq

/-- The pre-iteration count of `generate_images_stream` (`app.py` lines
151–154): the summed `len(df[col].dropna())` over selected columns present
in the table.  Note `dropna` removes only missing values, not blank
strings. -/
def streamTotalCount (df : DataFrame) (cols : List String) : Nat :=
  cols.foldl (fun acc col =>
    if col ∈ df.columns then acc + (dfDropna df col).length else acc) 0

/-- The generator state of `generate_images_stream`: the rolling counter,
the error list, and the events emitted so far. -/
structure StreamSt where
  count : Nat
  errors : List String
  events : List Event
deriving Repr, DecidableEq

/-- One cell of `generate_images_stream` (`app.py` lines 165–202): skip a
blank cell; otherwise increment the counter, emit a progress event, fetch,
then either emit the image event or roll the counter back and emit an
error event. -/
def streamProcessCell (fetch : String → Option FetchInfo)
    (sanitize : String → String) (total : Nat) (col : String)
    (st : StreamSt) (cell : String) : StreamSt :=
  if pytrim cell = "" then st
  else
    let url := pytrim cell
    let count := st.count + 1
    let pro := Event.progress count total col
    match fetch url with
    | some info =>
        { count := count, errors := st.errors,
          events := st.events ++
            [pro, Event.image col (imageFilename sanitize col count info.extension)
              info.data info.size count total] }
    | none =>
        let msg := "Failed to download from " ++ url
        { count := count - 1, errors := st.errors ++ [msg],
          events := st.events ++ [pro, Event.error msg] }

/-- One selected column of `generate_images_stream` (`app.py` lines
158–202): an absent column emits one error event; a present column's
non-missing cells are processed in row order.  The counter is shared
across columns. -/
def streamProcessColumn (fetch : String → Option FetchInfo)
    (sanitize : String → String) (df : DataFrame) (total : Nat)
    (st : StreamSt) (col : String) : StreamSt :=
  if col ∈ df.columns then
    (dfDropna df col).foldl (streamProcessCell fetch sanitize total col) st
  else
    let msg := colNotFoundMsg col
    { st with errors := st.errors ++ [msg], events := st.events ++ [Event.error msg] }

/-- `generate_images_stream` of `app.py` (lines 145–205) as the list of
events it yields: one start event, the per-column events, and one
completion event carrying the final counter and the first 10 errors. -/
def generate_images_stream (fetch : String → Option FetchInfo)
    (sanitize : String → String) (df : DataFrame)
    (selected_columns : List String) : List Event :=
  let total := streamTotalCount df selected_columns
  let st := selected_columns.foldl (streamProcessColumn fetch sanitize df total)
    { count := 0, errors := [], events := [Event.start total] }
  st.events ++ [Event.complete st.count (st.errors.take 10)]

/-! ## The CSV-row variant (`api/index.py`) -/

/-- A parsed table as `api/index.py` stores it: the processed column names
and the raw parsed rows, the header row included. -/
structure ApiTable where
  columns : List String
  rows : List (List String)
deriving Repr, DecidableEq

/-- One entry of `successful_downloads` in `api/index.py`: as for the
dataframe variant, `seq` records the counter value (`count + 1`) the
source embeds in `filename`. -/
structure ApiImage where
  column : String
  seq : Nat
  filename : String
  data : String
  extension : String
  size : Nat
deriving Repr, DecidableEq

/-- The per-column accumulator of `download_images` in `api/index.py`: the
per-column counter plus the run-wide success and error lists. -/
structure ApiColSt where
  count : Nat
  successes : List ApiImage
  errors : List String
deriving Repr, DecidableEq

/-- Python slicing `s[:50]` used to truncate a URL in an error message. -/
def pyTake50 (s : String) : String := String.mk (s.toList.take 50)

/-- One data row of a selected column in `api/index.py` (lines 307–334):
skip the row when it is too short at this column's index or the cell is
blank; otherwise fetch, and on success record the download under
`count + 1` and then increment, on failure record an error (the counter is
untouched, so the next success reuses the number). -/
def apiProcessRow (fetch : String → Option FetchInfo) (sanitize : String → String)
    (col : String) (colIndex : Nat) (st : ApiColSt) (row : List String) : ApiColSt :=
  match row[colIndex]? with
  | none => st
  | some cell =>
      if pytrim cell = "" then st
      else
        let url := pytrim cell
        match fetch url with
        | some info =>
            { count := st.count + 1,
              successes := st.successes ++
                [⟨col, st.count + 1,
                  imageFilename sanitize col (st.count + 1) info.extension,
                  info.data, info.extension, info.size⟩],
              errors := st.errors }
        | none =>
            { st with errors := st.errors ++
                ["Failed to download from " ++ (pyTake50 url ++ "...")] }

/-- One selected column of `download_images` in `api/index.py` (lines
297–334): an absent column yields one soft error; a present column is
processed over the data rows with a fresh counter (`count = 0` inside the
column loop, line 303). -/
def apiProcessColumn (fetch : String → Option FetchInfo) (sanitize : String → String)
    (columns : List String) (rows : List (List String))
    (acc : List ApiImage × List String) (col : String) :
    List ApiImage × List String :=
  if col ∈ columns then
    let colIndex := columns.indexOf col
    let st := (rows.drop 1).foldl (apiProcessRow fetch sanitize col colIndex)
      { count := 0, successes := acc.1, errors := acc.2 }
    (st.successes, st.errors)
  else
    (acc.1, acc.2 ++ [colNotFoundMsg col])

/-- Whether a row has a non-blank cell at the column index (`api/index.py`
line 278 and line 309): the row is long enough and the trimmed cell is
non-empty. -/
def apiCellQualifies (colIndex : Nat) (row : List String) : Bool :=
  match row[colIndex]? with
  | some cell => pytrim cell ≠ ""
  | none => false

/-- The pre-fetch count `total_urls` of `api/index.py` (lines 271–279):
non-blank cells over the data rows of every selected column present in the
table. -/
def apiTotalUrls (columns : List String) (rows : List (List String))
    (cols : List String) : Nat :=
  cols.foldl (fun acc col =>
    if col ∈ columns then
      acc + ((rows.drop 1).filter (apiCellQualifies (columns.indexOf col))).length
    else acc) 0

/-- The column loop of `download_images` in `api/index.py` (lines
297–334), accumulating the run-wide success and error lists. -/
def apiRun (fetch : String → Option FetchInfo) (sanitize : String → String)
    (columns : List String) (rows : List (List String))
    (selected_columns : List String) : List ApiImage × List String :=
  selected_columns.foldl (apiProcessColumn fetch sanitize columns rows) ([], [])

/-- `download_images` of `api/index.py` (lines 236–359): the zero-count
short circuit precedes the download loop, and the fetcher is a parameter
the short-circuit branch never consults. -/
def api_download_images (fetch : String → Option FetchInfo)
    (sanitize : String → String) (registry : List (String × ApiTable))
    (filename : Option String) (selected_columns : List String) :
    Except String BatchResponse :=
  if filename.getD "" = "" ∨ selected_columns = [] then
    .error "Missing required parameters"
  else
    match registry.lookup (filename.getD "") with
    | none => .error "File not found. Please upload the file again."
    | some tbl =>
        if apiTotalUrls tbl.columns tbl.rows selected_columns = 0 then
          .ok tryDifferentColumns
        else
          let res := apiRun fetch sanitize tbl.columns tbl.rows selected_columns
          if res.1 ≠ [] then
            .ok { success := true, total_images := res.1.length,
                  message := some (toString res.1.length ++
                    " images processed successfully!"),
                  error := none, errors := res.2.take 10 }
          else
            .ok tryDifferentColumns

/-! ## Ingestion (`upload_file` in both variants) -/

/-- The header-merge test of `api/index.py` line 206: the left fragment
ends in `"professional"` and the right one starts with `"but ideally"`. -/
def splitPair (a b : String) : Bool :=
  pyEndsWith a "professional" && pyStartsWith b "but ideally"

/-- The reconstruction loop of `api/index.py` lines 203–213: walk the
parsed header left to right, joining a matching adjacent pair with
`", "` (consuming both), otherwise keeping the entry. -/
def reconstructColumns : List String → List String
  | [] => []
  | [c] => [c]
  | a :: b :: rest =>
      if splitPair a b then (a ++ ", " ++ b) :: reconstructColumns rest
      else a :: reconstructColumns (b :: rest)

/-- The header processing of `api/index.py` lines 194–213: trim every
entry, then apply the reconstruction heuristic only when more than 4
columns were parsed. -/
def processHeader (cols : List String) : List String :=
  let trimmed := cols.map pytrim
  if 4 < trimmed.length then reconstructColumns trimmed else trimmed

/-- `upload_file` of `api/index.py` (lines 159–234).  The `csv.reader`
pass over the decoded bytes is the parameter `parsedRows`; `none` stands
for a decode exception (caught as a generic 500, modelled as the
`"Upload failed"` error).  The pair returned is the registry after the
call and the response (`ok` carries the column list). -/
def api_upload_file (parsedRows : Option (List (List String)))
    (sanitize : String → String) (registry : List (String × ApiTable))
    (rawName : String) : List (String × ApiTable) × Except String (List String) :=
  let filename := sanitize rawName
  let ext := fileExtension filename
  if ext = ".csv" then
    match parsedRows with
    | none => (registry, .error "Upload failed")
    | some rows =>
        match rows with
        | [] => (registry, .error "Empty CSV file")
        | header :: _ =>
            let columns := processHeader header
            (pyDictSet registry filename ⟨columns, rows⟩, .ok columns)
  else
    (registry, .error "Only CSV files are supported")

/-- `upload_file` of `app.py` (lines 100–143).  The pandas readers are the
parameters `readCsv` and `readExcel`; `none` stands for a parser exception
(caught as a generic 500, modelled as the `"Upload failed"` error — note
this variant has no empty-file check of its own). -/
def app_upload_file (readCsv readExcel : Option DataFrame)
    (sanitize : String → String) (registry : List (String × DataFrame))
    (rawName : String) : List (String × DataFrame) × Except String (List String) :=
  let filename := sanitize rawName
  let ext := fileExtension filename
  if ext = ".csv" then
    match readCsv with
    | none => (registry, .error "Upload failed")
    | some df => (pyDictSet registry filename df, .ok df.columns)
  else if ext = ".xls" ∨ ext = ".xlsx" then
    match readExcel with
    | none => (registry, .error "Upload failed")
    | some df => (pyDictSet registry filename df, .ok df.columns)
  else
    (registry, .error "Unsupported file format")

/-! ## Specification-side counts -/

/-- Qualifying cells of the spec's glossary, for the dataframe variant: a
cell in a selected present column, in a data row, non-missing, whose
trimmed value is non-empty. -/
def appQualifyingCount (df : DataFrame) (cols : List String) : Nat :=
  cols.foldl (fun acc col =>
    if col ∈ df.columns then
      acc + ((dfDropna df col).filter (fun c => pytrim c ≠ "")).length
    else acc) 0

/-- Non-missing cells across the selected columns present in the table:
what `dropna` keeps, blank strings included. -/
def nonMissingTotal (df : DataFrame) (cols : List String) : Nat :=
  (cols.map (fun col =>
    if col ∈ df.columns then
      (df.colData.getD (df.columns.indexOf col) []).countP Option.isSome
    else 0)).sum

/-! ## Helper lemmas -/

lemma indexOf_append_cons {α : Type} [BEq α] [LawfulBEq α] (pre : List α)
    (x : α) (t : List α) (h : x ∉ pre) :
    (pre ++ x :: t).indexOf x = pre.length := by
  induction pre with
  | nil => simp [List.indexOf_cons]
  | cons p ps ih =>
      have hpx : (p == x) = false := by
        simp only [beq_eq_false_iff_ne]
        intro hc
        exact h (hc ▸ List.mem_cons_self p ps)
      have hnot : x ∉ ps := fun hc => h (List.mem_cons_of_mem p hc)
      simp [List.indexOf_cons, hpx, ih hnot]

/-! ## C7: `extractResourceId` -/

/-- C7.  For every URL path, `get_file_id_from_url` returns the segment
immediately following the first occurrence of the marker segment
`"signed-url-redirect"` when the marker is present (`t.head?` is that
segment when one follows, and `none` when the marker is the last segment),
and returns `none` when the marker is absent from the path segments. -/
theorem C7_extract_resource_id :
    (∀ path : List Char, SURR ∉ urlParts path →
      get_file_id_from_url path = none) ∧
    (∀ (path : List Char) (pre t : List (List Char)),
      urlParts path = pre ++ SURR :: t →
      SURR ∉ pre → get_file_id_from_url path = t.head?) := by
  constructor
  · intro path h
    simp [get_file_id_from_url, h]
  · intro path pre t hp hnp
    have hm : SURR ∈ pre ++ SURR :: t :=
      List.mem_append_right _ (List.mem_cons_self _ _)
    have hidx : List.indexOf SURR (pre ++ SURR :: t) = pre.length :=
      indexOf_append_cons pre SURR t hnp
    simp only [get_file_id_from_url, hp, hidx, if_pos hm]
    rw [List.getElem?_append_right (by omega)]
    have h1 : pre.length + 1 - pre.length = 1 := by omega
    rw [h1]
    cases t <;> simp

/-- Witness for C7 at a concrete URL path containing the marker followed
by a resource id. -/
theorem C7_extract_resource_id_witness :
    get_file_id_from_url "/x/signed-url-redirect/abc/more".toList =
      some "abc".toList := by
  have h := C7_extract_resource_id.2 "/x/signed-url-redirect/abc/more".toList
    ["x".toList] ["abc".toList, "more".toList] (by decide) (by decide)
  exact h.trans rfl

/-! ## C9: `inferExtension` -/

/-- C9.  For every URL path whose final component contains no dot,
`get_extension_from_url` returns `"jpg"`; for every URL path whose final
component ends in a proper extension (a nonempty dot-free suffix after a
dot, with some non-dot character before that dot), it returns that
extension literally, without the leading dot. -/
theorem C9_infer_extension :
    (∀ path : List Char, '.' ∉ basenameOf path →
      get_extension_from_url path = "jpg".toList) ∧
    (∀ (path stem e : List Char), basenameOf path = stem ++ '.' :: e →
      e ≠ [] → '.' ∉ e → (∃ c ∈ stem, c ≠ '.') →
      get_extension_from_url path = e) := by
  constructor
  · intro path h
    have hall : (basenameOf path).reverse.takeWhile (fun c => c != '.') =
        (basenameOf path).reverse := by
      refine List.takeWhile_eq_self_iff.mpr ?_
      intro a ha
      simp only [bne_iff_ne, ne_eq]
      intro hc
      exact h (hc ▸ (List.mem_reverse.mp ha))
    have hext : splitextExt path = [] := by
      simp [splitextExt, hall]
    simp [get_extension_from_url, hext]
  · intro path stem e hb he hd hs
    have hrev : (basenameOf path).reverse = e.reverse ++ '.' :: stem.reverse := by
      rw [hb]
      simp [List.reverse_append]
    have htake : (basenameOf path).reverse.takeWhile (fun c => c != '.') =
        e.reverse := by
      rw [hrev, List.takeWhile_append]
      have hre : e.reverse.takeWhile (fun c => c != '.') = e.reverse := by
        refine List.takeWhile_eq_self_iff.mpr ?_
        intro a ha
        simp only [bne_iff_ne, ne_eq]
        intro hc
        exact hd (hc ▸ (List.mem_reverse.mp ha))
      rw [hre]
      simp
    have hlb : (basenameOf path).length = stem.length + e.length + 1 := by
      rw [hb]
      simp
      omega
    have hext : splitextExt path = '.' :: e := by
      simp only [splitextExt, htake, List.length_reverse]
      rw [if_neg (by omega)]
      have hidx : (basenameOf path).length - e.length - 1 = stem.length := by
        omega
      rw [hidx, hb]
      have htk : (stem ++ '.' :: e).take stem.length = stem := List.take_left _ _
      rw [htk]
      have hany : stem.any (fun c => c != '.') = true := by
        rcases hs with ⟨c, hc, hcne⟩
        refine List.any_eq_true.mpr ⟨c, hc, ?_⟩
        simpa [bne_iff_ne]
      rw [if_pos hany, List.reverse_reverse]
    have hdrop : ('.' :: e).dropWhile (fun c => c == '.') = e := by
      rw [List.dropWhile_cons]
      simp only [beq_self_eq_true, if_true]
      cases e with
      | nil => exact absurd rfl he
      | cons c0 e0 =>
          rw [List.dropWhile_cons]
          have : (c0 == '.') = false := by
            simp only [beq_eq_false_iff_ne, ne_eq]
            intro hc
            exact hd (hc ▸ List.mem_cons_self c0 e0)
          simp [this]
    simp only [get_extension_from_url, hext, hdrop]
    rw [if_neg he]

/-- Witness for C9: both parts at concrete URL paths. -/
theorem C9_infer_extension_witness :
    get_extension_from_url "/a/b".toList = "jpg".toList ∧
    get_extension_from_url "/a/b.png".toList = "png".toList := by
  constructor
  · exact C9_infer_extension.1 "/a/b".toList (by decide)
  · have h := C9_infer_extension.2 "/a/b.png".toList "b".toList "png".toList
      (by decide) (by decide) (by decide) ⟨'b', by decide, by decide⟩
    exact h

/-! ## C10: missing request parameters -/

/-- C10.  For every download request whose filename is missing (or empty,
which Python's truthiness also rejects) or whose selected-columns list is
empty, both variants of `download_images` fail fast with the fatal
`"Missing required parameters"` error.  The registry and the fetcher are
universally quantified: the result is this error for every registry
content and every fetcher, so neither the registry nor the fetcher is
consulted, and no zero-result soft outcome is produced. -/
theorem C10_missing_parameters (fetch1 fetch2 : String → Option FetchInfo)
    (z1 z2 : String → String) (reg1 : List (String × DataFrame))
    (reg2 : List (String × ApiTable)) (fname : Option String)
    (cols : List String) (dp : String)
    (h : fname = none ∨ fname = some "" ∨ cols = []) :
    app_download_images fetch1 z1 reg1 fname cols dp =
      .error "Missing required parameters" ∧
    api_download_images fetch2 z2 reg2 fname cols =
      .error "Missing required parameters" := by
  have hc : fname.getD "" = "" ∨ cols = [] := by
    rcases h with h | h | h
    · left; rw [h]; rfl
    · left; rw [h]; rfl
    · right; exact h
  constructor
  · simp only [app_download_images, if_pos hc]
  · simp only [api_download_images, if_pos hc]

/-- Witness for C10: a request with an empty column selection. -/
theorem C10_missing_parameters_witness :
    app_download_images (fun _ => none) (fun s => s) [] (some "f.csv") [] "" =
      .error "Missing required parameters" ∧
    api_download_images (fun _ => none) (fun s => s) [] (some "f.csv") [] =
      .error "Missing required parameters" :=
  C10_missing_parameters (fun _ => none) (fun _ => none) (fun s => s)
    (fun s => s) [] [] (some "f.csv") [] "" (Or.inr (Or.inr rfl))

/-! ## C5: accepted upload formats -/

/-- C5 counterexample.  The claim says ingest accepts `.xls`/`.xlsx` for
every upload, but the `api/index.py` variant rejects an `.xlsx` upload
with its unsupported-format error (storing nothing), even when the file
parses fine. -/
theorem C5_counterexample :
    api_upload_file (some [["Image"], ["u"]]) (fun s => s) [] "data.xlsx" =
      ([], .error "Only CSV files are supported") := by
  rfl

/-- C5 as amended: the dataframe variant (`app.py`) accepts exactly
`.csv`, `.xls` and `.xlsx` — any other extension fails with
`"Unsupported file format"`; the CSV-row variant (`api/index.py`) accepts
only `.csv` — any other extension fails with
`"Only CSV files are supported"`, and a CSV parsing to zero records fails
with `"Empty CSV file"` (the dataframe variant has no empty-record check
of its own: a parser exception surfaces as a generic upload failure).  In
every failure case the registry is returned unchanged: nothing is
stored. -/
theorem C5_amended :
    (∀ (readCsv readExcel : Option DataFrame) (z : String → String)
      (reg : List (String × DataFrame)) (raw : String),
      fileExtension (z raw) ∉ [".csv", ".xls", ".xlsx"] →
      app_upload_file readCsv readExcel z reg raw =
        (reg, .error "Unsupported file format")) ∧
    (∀ (readCsv : Option DataFrame) (df : DataFrame) (z : String → String)
      (reg : List (String × DataFrame)) (raw : String),
      fileExtension (z raw) = ".xls" ∨ fileExtension (z raw) = ".xlsx" →
      app_upload_file readCsv (some df) z reg raw =
        (pyDictSet reg (z raw) df, .ok df.columns)) ∧
    (∀ (parsedRows : Option (List (List String))) (z : String → String)
      (reg : List (String × ApiTable)) (raw : String),
      fileExtension (z raw) ≠ ".csv" →
      api_upload_file parsedRows z reg raw =
        (reg, .error "Only CSV files are supported")) ∧
    (∀ (z : String → String) (reg : List (String × ApiTable)) (raw : String),
      fileExtension (z raw) = ".csv" →
      api_upload_file (some []) z reg raw = (reg, .error "Empty CSV file")) ∧
    (∀ (readExcel : Option DataFrame) (z : String → String)
      (reg : List (String × DataFrame)) (raw : String),
      fileExtension (z raw) = ".csv" →
      app_upload_file none readExcel z reg raw = (reg, .error "Upload failed")) := by
  refine ⟨?_, ?_, ?_, ?_, ?_⟩
  · intro rc re z reg raw h
    have h1 : fileExtension (z raw) ≠ ".csv" := fun hc => h (by simp [hc])
    have h2 : fileExtension (z raw) ≠ ".xls" := fun hc => h (by simp [hc])
    have h3 : fileExtension (z raw) ≠ ".xlsx" := fun hc => h (by simp [hc])
    simp [app_upload_file, h1, h2, h3]
  · intro rc df z reg raw h
    have h1 : fileExtension (z raw) ≠ ".csv" := by
      rcases h with h | h <;> rw [h] <;> decide
    rcases h with h | h <;> simp [app_upload_file, h1, h]
  · intro p z reg raw h
    simp [api_upload_file, h]
  · intro z reg raw h
    simp [api_upload_file, h]
  · intro re z reg raw h
    simp [app_upload_file, h]

/-- Witness for C5 as amended: concrete uploads exercising the
unsupported-format and empty-file failures and an accepted `.xlsx`. -/
theorem C5_amended_witness :
    app_upload_file none none (fun s => s) [] "notes.txt" =
      ([], .error "Unsupported file format") ∧
    app_upload_file none (some ⟨["A"], [[]]⟩) (fun s => s) [] "t.xlsx" =
      (pyDictSet [] "t.xlsx" ⟨["A"], [[]]⟩, .ok ["A"]) ∧
    api_upload_file (some []) (fun s => s) [] "t.csv" =
      ([], .error "Empty CSV file") := by
  refine ⟨?_, ?_, ?_⟩
  · exact C5_amended.1 none none (fun s => s) [] "notes.txt" (by decide)
  · exact C5_amended.2.1 none ⟨["A"], [[]]⟩ (fun s => s) [] "t.xlsx" (Or.inr (by decide))
  · exact C5_amended.2.2.2.1 (fun s => s) [] "t.csv" (by decide)

/-! ## C6: the header-merge heuristic -/

/-- Whether some adjacent pair of the list matches the merge test. -/
def anyAdjacentPair : List String → Bool
  | a :: b :: rest => splitPair a b || anyAdjacentPair (b :: rest)
  | _ => false

/-- C6 counterexample.  The claim says a matching adjacent pair is always
merged, but the source applies the reconstruction only when more than 4
columns were parsed: this 4-column header contains a matching pair and is
returned unchanged. -/
theorem C6_counterexample :
    processHeader ["a professional", "but ideally b", "c", "d"] =
      ["a professional", "but ideally b", "c", "d"] ∧
    splitPair "a professional" "but ideally b" = true := by
  constructor <;> rfl

/-- C6 as amended: the merge heuristic runs only when the parsed header
has more than 4 columns.  In that case the reconstruction walks the
trimmed entries and joins each matching adjacent pair with `", "`; a list
without a matching adjacent pair passes through the reconstruction
unchanged, and a header with at most 4 columns is returned unchanged apart
from whitespace trimming. -/
theorem C6_amended :
    (∀ cols : List String, cols.length ≤ 4 →
      processHeader cols = cols.map pytrim) ∧
    (∀ cols : List String, 4 < cols.length →
      processHeader cols = reconstructColumns (cols.map pytrim)) ∧
    (∀ (a b : String) (rest : List String), splitPair a b = true →
      reconstructColumns (a :: b :: rest) =
        (a ++ ", " ++ b) :: reconstructColumns rest) ∧
    (∀ cols : List String, anyAdjacentPair cols = false →
      reconstructColumns cols = cols) := by
  refine ⟨?_, ?_, ?_, ?_⟩
  · intro cols h
    simp only [processHeader, List.length_map]
    rw [if_neg (by omega)]
  · intro cols h
    simp only [processHeader, List.length_map]
    rw [if_pos (by omega)]
  · intro a b rest h
    simp [reconstructColumns, h]
  · intro cols h
    induction cols with
    | nil => rfl
    | cons a tail ih =>
        cases tail with
        | nil => rfl
        | cons b rest =>
            have hab : splitPair a b = false := by
              rcases Bool.or_eq_false_iff.mp h with ⟨h1, _⟩
              exact h1
            have htail : anyAdjacentPair (b :: rest) = false := by
              rcases Bool.or_eq_false_iff.mp h with ⟨_, h2⟩
              exact h2
            simp [reconstructColumns, hab, ih htail]

/-- Witness for C6 as amended: a 5-column header with a matching pair is
merged; a short or pair-free header is only trimmed. -/
theorem C6_amended_witness :
    processHeader [" a ", "b"] = ["a", "b"] ∧
    processHeader ["x professional", "but ideally y", "c", "d", "e"] =
      ["x professional, but ideally y", "c", "d", "e"] ∧
    reconstructColumns ["c", "d", "e"] = ["c", "d", "e"] := by
  refine ⟨?_, ?_, ?_⟩
  · exact (C6_amended.1 [" a ", "b"] (by decide)).trans (by decide)
  · refine ((C6_amended.2.1 _ (by decide)).trans ?_)
    have hmap : (["x professional", "but ideally y", "c", "d", "e"].map pytrim) =
        ["x professional", "but ideally y", "c", "d", "e"] := by decide
    rw [hmap]
    refine (C6_amended.2.2.1 "x professional" "but ideally y" ["c", "d", "e"] (by decide)).trans ?_
    rw [C6_amended.2.2.2 ["c", "d", "e"] (by decide)]
    decide
  · exact C6_amended.2.2.2 ["c", "d", "e"] (by decide)

/-! ## Accumulator framing lemmas

Each loop of the pipeline only ever appends to its success/error/event
lists and computes its counter from the previous counter, so a fold from
any state is the fold from the "empty" state with the same counter, with
the start lists prepended. -/

lemma batch_foldl_shift {σ : Type} (step : BatchSt → σ → BatchSt)
    (hc : ∀ st x, (step st x).count = (step ⟨st.count, [], []⟩ x).count)
    (hs : ∀ st x, (step st x).successes =
      st.successes ++ (step ⟨st.count, [], []⟩ x).successes)
    (he : ∀ st x, (step st x).errors =
      st.errors ++ (step ⟨st.count, [], []⟩ x).errors)
    (l : List σ) (st : BatchSt) :
    l.foldl step st =
      ⟨(l.foldl step ⟨st.count, [], []⟩).count,
       st.successes ++ (l.foldl step ⟨st.count, [], []⟩).successes,
       st.errors ++ (l.foldl step ⟨st.count, [], []⟩).errors⟩ := by
  induction l generalizing st with
  | nil => simp
  | cons x xs ih =>
      simp only [List.foldl_cons]
      rw [ih (step st x), ih (step ⟨st.count, [], []⟩ x)]
      have hcc : (step st x).count = (step ⟨st.count, [], []⟩ x).count := hc st x
      have hz : (step ⟨st.count, [], []⟩ x).count =
          (step ⟨(⟨st.count, [], []⟩ : BatchSt).count, [], []⟩ x).count := rfl
      rw [hcc, hs st x, he st x]
      simp [List.append_assoc]

lemma stream_foldl_shift {σ : Type} (step : StreamSt → σ → StreamSt)
    (hc : ∀ st x, (step st x).count = (step ⟨st.count, [], []⟩ x).count)
    (he : ∀ st x, (step st x).errors =
      st.errors ++ (step ⟨st.count, [], []⟩ x).errors)
    (hv : ∀ st x, (step st x).events =
      st.events ++ (step ⟨st.count, [], []⟩ x).events)
    (l : List σ) (st : StreamSt) :
    l.foldl step st =
      ⟨(l.foldl step ⟨st.count, [], []⟩).count,
       st.errors ++ (l.foldl step ⟨st.count, [], []⟩).errors,
       st.events ++ (l.foldl step ⟨st.count, [], []⟩).events⟩ := by
  induction l generalizing st with
  | nil => simp
  | cons x xs ih =>
      simp only [List.foldl_cons]
      rw [ih (step st x), ih (step ⟨st.count, [], []⟩ x)]
      rw [hc st x, he st x, hv st x]
      simp [List.append_assoc]

lemma apicol_foldl_shift {σ : Type} (step : ApiColSt → σ → ApiColSt)
    (hc : ∀ st x, (step st x).count = (step ⟨st.count, [], []⟩ x).count)
    (hs : ∀ st x, (step st x).successes =
      st.successes ++ (step ⟨st.count, [], []⟩ x).successes)
    (he : ∀ st x, (step st x).errors =
      st.errors ++ (step ⟨st.count, [], []⟩ x).errors)
    (l : List σ) (st : ApiColSt) :
    l.foldl step st =
      ⟨(l.foldl step ⟨st.count, [], []⟩).count,
       st.successes ++ (l.foldl step ⟨st.count, [], []⟩).successes,
       st.errors ++ (l.foldl step ⟨st.count, [], []⟩).errors⟩ := by
  induction l generalizing st with
  | nil => simp
  | cons x xs ih =>
      simp only [List.foldl_cons]
      rw [ih (step st x), ih (step ⟨st.count, [], []⟩ x)]
      rw [hc st x, hs st x, he st x]
      simp [List.append_assoc]

lemma appProcessCell_count (f : String → Option FetchInfo) (z : String → String)
    (col : String) (st : BatchSt) (cell : String) :
    (appProcessCell f z col st cell).count =
      (appProcessCell f z col ⟨st.count, [], []⟩ cell).count := by
  simp only [appProcessCell]
  split
  · rfl
  · cases f (pytrim cell) <;> rfl

lemma appProcessCell_successes (f : String → Option FetchInfo) (z : String → String)
    (col : String) (st : BatchSt) (cell : String) :
    (appProcessCell f z col st cell).successes =
      st.successes ++ (appProcessCell f z col ⟨st.count, [], []⟩ cell).successes := by
  simp only [appProcessCell]
  split
  · simp
  · cases f (pytrim cell) <;> simp

lemma appProcessCell_errors (f : String → Option FetchInfo) (z : String → String)
    (col : String) (st : BatchSt) (cell : String) :
    (appProcessCell f z col st cell).errors =
      st.errors ++ (appProcessCell f z col ⟨st.count, [], []⟩ cell).errors := by
  simp only [appProcessCell]
  split
  · simp
  · cases f (pytrim cell) <;> simp

lemma appProcessColumn_count (f : String → Option FetchInfo) (z : String → String)
    (df : DataFrame) (st : BatchSt) (col : String) :
    (appProcessColumn f z df st col).count =
      (appProcessColumn f z df ⟨st.count, [], []⟩ col).count := by
  simp only [appProcessColumn]
  split
  · rw [batch_foldl_shift (appProcessCell f z col) (appProcessCell_count f z col)
      (appProcessCell_successes f z col) (appProcessCell_errors f z col)]
  · rfl

lemma appProcessColumn_successes (f : String → Option FetchInfo) (z : String → String)
    (df : DataFrame) (st : BatchSt) (col : String) :
    (appProcessColumn f z df st col).successes =
      st.successes ++ (appProcessColumn f z df ⟨st.count, [], []⟩ col).successes := by
  simp only [appProcessColumn]
  split
  · rw [batch_foldl_shift (appProcessCell f z col) (appProcessCell_count f z col)
      (appProcessCell_successes f z col) (appProcessCell_errors f z col),
      batch_foldl_shift (appProcessCell f z col) (appProcessCell_count f z col)
      (appProcessCell_successes f z col) (appProcessCell_errors f z col) _ ⟨st.count, [], []⟩]
  · simp

lemma appProcessColumn_errors (f : String → Option FetchInfo) (z : String → String)
    (df : DataFrame) (st : BatchSt) (col : String) :
    (appProcessColumn f z df st col).errors =
      st.errors ++ (appProcessColumn f z df ⟨st.count, [], []⟩ col).errors := by
  simp only [appProcessColumn]
  split
  · rw [batch_foldl_shift (appProcessCell f z col) (appProcessCell_count f z col)
      (appProcessCell_successes f z col) (appProcessCell_errors f z col),
      batch_foldl_shift (appProcessCell f z col) (appProcessCell_count f z col)
      (appProcessCell_successes f z col) (appProcessCell_errors f z col) _ ⟨st.count, [], []⟩]
  · simp

lemma streamProcessCell_count (f : String → Option FetchInfo) (z : String → String)
    (total : Nat) (col : String) (st : StreamSt) (cell : String) :
    (streamProcessCell f z total col st cell).count =
      (streamProcessCell f z total col ⟨st.count, [], []⟩ cell).count := by
  simp only [streamProcessCell]
  split
  · rfl
  · cases f (pytrim cell) <;> rfl

lemma streamProcessCell_errors (f : String → Option FetchInfo) (z : String → String)
    (total : Nat) (col : String) (st : StreamSt) (cell : String) :
    (streamProcessCell f z total col st cell).errors =
      st.errors ++ (streamProcessCell f z total col ⟨st.count, [], []⟩ cell).errors := by
  simp only [streamProcessCell]
  split
  · simp
  · cases f (pytrim cell) <;> simp

lemma streamProcessCell_events (f : String → Option FetchInfo) (z : String → String)
    (total : Nat) (col : String) (st : StreamSt) (cell : String) :
    (streamProcessCell f z total col st cell).events =
      st.events ++ (streamProcessCell f z total col ⟨st.count, [], []⟩ cell).events := by
  simp only [streamProcessCell]
  split
  · simp
  · cases f (pytrim cell) <;> simp

lemma streamProcessColumn_count (f : String → Option FetchInfo) (z : String → String)
    (df : DataFrame) (total : Nat) (st : StreamSt) (col : String) :
    (streamProcessColumn f z df total st col).count =
      (streamProcessColumn f z df total ⟨st.count, [], []⟩ col).count := by
  simp only [streamProcessColumn]
  split
  · rw [stream_foldl_shift (streamProcessCell f z total col)
      (streamProcessCell_count f z total col) (streamProcessCell_errors f z total col)
      (streamProcessCell_events f z total col)]
  · rfl

lemma streamProcessColumn_errors (f : String → Option FetchInfo) (z : String → String)
    (df : DataFrame) (total : Nat) (st : StreamSt) (col : String) :
    (streamProcessColumn f z df total st col).errors =
      st.errors ++ (streamProcessColumn f z df total ⟨st.count, [], []⟩ col).errors := by
  simp only [streamProcessColumn]
  split
  · rw [stream_foldl_shift (streamProcessCell f z total col)
      (streamProcessCell_count f z total col) (streamProcessCell_errors f z total col)
      (streamProcessCell_events f z total col),
      stream_foldl_shift (streamProcessCell f z total col)
      (streamProcessCell_count f z total col) (streamProcessCell_errors f z total col)
      (streamProcessCell_events f z total col) _ ⟨st.count, [], []⟩]
  · simp

lemma streamProcessColumn_events (f : String → Option FetchInfo) (z : String → String)
    (df : DataFrame) (total : Nat) (st : StreamSt) (col : String) :
    (streamProcessColumn f z df total st col).events =
      st.events ++ (streamProcessColumn f z df total ⟨st.count, [], []⟩ col).events := by
  simp only [streamProcessColumn]
  split
  · rw [stream_foldl_shift (streamProcessCell f z total col)
      (streamProcessCell_count f z total col) (streamProcessCell_errors f z total col)
      (streamProcessCell_events f z total col),
      stream_foldl_shift (streamProcessCell f z total col)
      (streamProcessCell_count f z total col) (streamProcessCell_errors f z total col)
      (streamProcessCell_events f z total col) _ ⟨st.count, [], []⟩]
  · simp

lemma apiProcessRow_count (f : String → Option FetchInfo) (z : String → String)
    (col : String) (ci : Nat) (st : ApiColSt) (row : List String) :
    (apiProcessRow f z col ci st row).count =
      (apiProcessRow f z col ci ⟨st.count, [], []⟩ row).count := by
  simp only [apiProcessRow]
  split
  · rfl
  · split
    · rfl
    · split <;> rfl

lemma apiProcessRow_successes (f : String → Option FetchInfo) (z : String → String)
    (col : String) (ci : Nat) (st : ApiColSt) (row : List String) :
    (apiProcessRow f z col ci st row).successes =
      st.successes ++ (apiProcessRow f z col ci ⟨st.count, [], []⟩ row).successes := by
  simp only [apiProcessRow]
  split
  · simp
  · split
    · simp
    · split <;> simp

lemma apiProcessRow_errors (f : String → Option FetchInfo) (z : String → String)
    (col : String) (ci : Nat) (st : ApiColSt) (row : List String) :
    (apiProcessRow f z col ci st row).errors =
      st.errors ++ (apiProcessRow f z col ci ⟨st.count, [], []⟩ row).errors := by
  simp only [apiProcessRow]
  split
  · simp
  · split
    · simp
    · split <;> simp

/-- The per-column state `api/index.py` reaches from a fresh counter and
empty lists, over the data rows of a present column. -/
def apiColBlockSt (f : String → Option FetchInfo) (z : String → String)
    (columns : List String) (rows : List (List String)) (col : String) : ApiColSt :=
  (rows.drop 1).foldl (apiProcessRow f z col (columns.indexOf col)) ⟨0, [], []⟩

/-- The successes one selected column contributes to an `api/index.py`
run. -/
def apiColSuccesses (f : String → Option FetchInfo) (z : String → String)
    (columns : List String) (rows : List (List String)) (col : String) :
    List ApiImage :=
  if col ∈ columns then (apiColBlockSt f z columns rows col).successes else []

/-- The errors one selected column contributes to an `api/index.py` run. -/
def apiColErrors (f : String → Option FetchInfo) (z : String → String)
    (columns : List String) (rows : List (List String)) (col : String) :
    List String :=
  if col ∈ columns then (apiColBlockSt f z columns rows col).errors
  else [colNotFoundMsg col]

lemma apiProcessColumn_eq (f : String → Option FetchInfo) (z : String → String)
    (columns : List String) (rows : List (List String))
    (acc : List ApiImage × List String) (col : String) :
    apiProcessColumn f z columns rows acc col =
      (acc.1 ++ apiColSuccesses f z columns rows col,
       acc.2 ++ apiColErrors f z columns rows col) := by
  simp only [apiProcessColumn, apiColSuccesses, apiColErrors, apiColBlockSt]
  split
  · rw [apicol_foldl_shift (apiProcessRow f z col (columns.indexOf col))
      (apiProcessRow_count f z col (columns.indexOf col))
      (apiProcessRow_successes f z col (columns.indexOf col))
      (apiProcessRow_errors f z col (columns.indexOf col)) (rows.drop 1)
      ⟨0, acc.1, acc.2⟩]
  · simp

lemma api_run_eq (f : String → Option FetchInfo) (z : String → String)
    (columns : List String) (rows : List (List String)) (cols : List String) :
    ∀ acc : List ApiImage × List String,
    cols.foldl (apiProcessColumn f z columns rows) acc =
      (acc.1 ++ (cols.map (apiColSuccesses f z columns rows)).flatten,
       acc.2 ++ (cols.map (apiColErrors f z columns rows)).flatten) := by
  induction cols with
  | nil => intro acc; simp
  | cons col cols ih =>
      intro acc
      simp only [List.foldl_cons, List.map_cons, List.flatten]
      rw [apiProcessColumn_eq, ih]
      simp [List.append_assoc]

/-! ## Sequence numbering -/

lemma appCells_seq (f : String → Option FetchInfo) (z : String → String)
    (col : String) (cells : List String) : ∀ n : Nat,
    ((cells.foldl (appProcessCell f z col) ⟨n, [], []⟩).successes.map
        (fun d => d.seq) =
      List.range' (n + 1)
        ((cells.foldl (appProcessCell f z col) ⟨n, [], []⟩).successes.length)) ∧
    ((cells.foldl (appProcessCell f z col) ⟨n, [], []⟩).count =
      n + (cells.foldl (appProcessCell f z col) ⟨n, [], []⟩).successes.length) := by
  induction cells with
  | nil => intro n; simp
  | cons c cs ih =>
      intro n
      simp only [List.foldl_cons]
      by_cases hb : pytrim c = ""
      · have hstep : appProcessCell f z col ⟨n, [], []⟩ c = ⟨n, [], []⟩ := by
          simp [appProcessCell, hb]
        rw [hstep]
        exact ih n
      · cases hf : f (pytrim c) with
        | some info =>
            have hstep : appProcessCell f z col ⟨n, [], []⟩ c =
                ⟨n + 1, [⟨col, n + 1, imageFilename z col (n + 1) info.extension,
                  info.size⟩], []⟩ := by
              simp [appProcessCell, hb, hf]
            rw [hstep,
              batch_foldl_shift _ (appProcessCell_count f z col)
                (appProcessCell_successes f z col) (appProcessCell_errors f z col)
                cs ⟨n + 1, _, _⟩]
            obtain ⟨ih1, ih2⟩ := ih (n + 1)
            constructor
            · simp only [List.singleton_append, List.map_cons, List.length_cons]
              rw [List.range'_succ, ih1]
            · simp only [List.singleton_append, List.length_cons]
              rw [ih2]
              omega
        | none =>
            have hstep : appProcessCell f z col ⟨n, [], []⟩ c =
                ⟨n, [], ["Failed to download from " ++ pytrim c]⟩ := by
              simp [appProcessCell, hb, hf]
            rw [hstep,
              batch_foldl_shift _ (appProcessCell_count f z col)
                (appProcessCell_successes f z col) (appProcessCell_errors f z col)
                cs ⟨n, _, _⟩]
            obtain ⟨ih1, ih2⟩ := ih n
            constructor
            · simpa using ih1
            · simpa using ih2

lemma appRun_seq_aux (f : String → Option FetchInfo) (z : String → String)
    (df : DataFrame) (cols : List String) : ∀ n : Nat,
    ((cols.foldl (appProcessColumn f z df) ⟨n, [], []⟩).successes.map
        (fun d => d.seq) =
      List.range' (n + 1)
        ((cols.foldl (appProcessColumn f z df) ⟨n, [], []⟩).successes.length)) ∧
    ((cols.foldl (appProcessColumn f z df) ⟨n, [], []⟩).count =
      n + (cols.foldl (appProcessColumn f z df) ⟨n, [], []⟩).successes.length) := by
  induction cols with
  | nil => intro n; simp
  | cons col cols ih =>
      intro n
      simp only [List.foldl_cons]
      by_cases hc : col ∈ df.columns
      · have hstep : appProcessColumn f z df ⟨n, [], []⟩ col =
            (dfDropna df col).foldl (appProcessCell f z col) ⟨n, [], []⟩ := by
          simp [appProcessColumn, hc]
        rw [hstep]
        obtain ⟨c1, c2⟩ := appCells_seq f z col (dfDropna df col) n
        rw [batch_foldl_shift _ (appProcessColumn_count f z df)
          (appProcessColumn_successes f z df) (appProcessColumn_errors f z df)
          cols ((dfDropna df col).foldl (appProcessCell f z col) ⟨n, [], []⟩)]
        obtain ⟨r1, r2⟩ :=
          ih ((dfDropna df col).foldl (appProcessCell f z col) ⟨n, [], []⟩).count
        constructor
        · simp only [List.map_append, List.length_append]
          rw [c1, r1, c2]
          have hr := List.range'_append (n + 1)
            ((dfDropna df col).foldl (appProcessCell f z col) ⟨n, [], []⟩).successes.length
            ((cols.foldl (appProcessColumn f z df)
              ⟨((dfDropna df col).foldl (appProcessCell f z col) ⟨n, [], []⟩).count,
                [], []⟩).successes.length) 1
          rw [show n + 1 + 1 *
              ((dfDropna df col).foldl (appProcessCell f z col) ⟨n, [], []⟩).successes.length =
              n + ((dfDropna df col).foldl (appProcessCell f z col)
                ⟨n, [], []⟩).successes.length + 1 by omega] at hr
          rw [c2] at hr
          rw [hr]
          exact congrArg (fun m => List.range' (n + 1) m 1) (by omega)
        · simp only [List.length_append]
          rw [r2, c2]
          omega
      · have hstep : appProcessColumn f z df ⟨n, [], []⟩ col =
            ⟨n, [], [colNotFoundMsg col]⟩ := by
          simp [appProcessColumn, hc]
        rw [hstep,
          batch_foldl_shift _ (appProcessColumn_count f z df)
            (appProcessColumn_successes f z df) (appProcessColumn_errors f z df)
            cols ⟨n, _, _⟩]
        obtain ⟨r1, r2⟩ := ih n
        constructor
        · simpa using r1
        · simpa using r2

lemma apiRows_seq (f : String → Option FetchInfo) (z : String → String)
    (col : String) (ci : Nat) (rows : List (List String)) : ∀ n : Nat,
    ((rows.foldl (apiProcessRow f z col ci) ⟨n, [], []⟩).successes.map
        (fun d => d.seq) =
      List.range' (n + 1)
        ((rows.foldl (apiProcessRow f z col ci) ⟨n, [], []⟩).successes.length)) ∧
    ((rows.foldl (apiProcessRow f z col ci) ⟨n, [], []⟩).count =
      n + (rows.foldl (apiProcessRow f z col ci) ⟨n, [], []⟩).successes.length) ∧
    (∀ d ∈ (rows.foldl (apiProcessRow f z col ci) ⟨n, [], []⟩).successes,
      d.column = col) := by
  induction rows with
  | nil => intro n; simp
  | cons row rs ih =>
      intro n
      simp only [List.foldl_cons]
      cases hr : row[ci]? with
      | none =>
          have hstep : apiProcessRow f z col ci ⟨n, [], []⟩ row = ⟨n, [], []⟩ := by
            simp [apiProcessRow, hr]
          rw [hstep]
          exact ih n
      | some cell =>
          by_cases hb : pytrim cell = ""
          · have hstep : apiProcessRow f z col ci ⟨n, [], []⟩ row = ⟨n, [], []⟩ := by
              simp [apiProcessRow, hr, hb]
            rw [hstep]
            exact ih n
          · cases hf : f (pytrim cell) with
            | some info =>
                have hstep : apiProcessRow f z col ci ⟨n, [], []⟩ row =
                    ⟨n + 1, [⟨col, n + 1,
                      imageFilename z col (n + 1) info.extension,
                      info.data, info.extension, info.size⟩], []⟩ := by
                  simp [apiProcessRow, hr, hb, hf]
                rw [hstep,
                  apicol_foldl_shift _ (apiProcessRow_count f z col ci)
                    (apiProcessRow_successes f z col ci) (apiProcessRow_errors f z col ci)
                    rs ⟨n + 1, _, _⟩]
                obtain ⟨ih1, ih2, ih3⟩ := ih (n + 1)
                refine ⟨?_, ?_, ?_⟩
                · simp only [List.singleton_append, List.map_cons, List.length_cons]
                  rw [List.range'_succ, ih1]
                · simp only [List.singleton_append, List.length_cons]
                  rw [ih2]
                  omega
                · intro d hd
                  simp only [List.singleton_append, List.mem_cons] at hd
                  rcases hd with hd | hd
                  · rw [hd]
                  · exact ih3 d hd
            | none =>
                have hstep : apiProcessRow f z col ci ⟨n, [], []⟩ row =
                    ⟨n, [], ["Failed to download from " ++
                      (pyTake50 (pytrim cell) ++ "...")]⟩ := by
                  simp [apiProcessRow, hr, hb, hf]
                rw [hstep,
                  apicol_foldl_shift _ (apiProcessRow_count f z col ci)
                    (apiProcessRow_successes f z col ci) (apiProcessRow_errors f z col ci)
                    rs ⟨n, _, _⟩]
                obtain ⟨ih1, ih2, ih3⟩ := ih n
                refine ⟨by simpa using ih1, by simpa using ih2, ?_⟩
                intro d hd
                simp only [List.nil_append] at hd
                exact ih3 d hd

/-- A fetcher for concrete runs: every URL succeeds with a 3-byte jpg. -/
def fetchConst : String → Option FetchInfo := fun _ => some ⟨"d", "jpg", 3⟩

/-- A two-column table with one non-blank cell per column. -/
def dfTwoCols : DataFrame := ⟨["A", "B"], [[some "u"], [some "v"]]⟩

/-- C1 counterexample.  In the `app.py` batch run the counter is
initialised once for the whole run, not per column: with two selected
columns holding one successful cell each, the single success of column
`"B"` is numbered `002`, not `001`, so the per-column restart the claim
asserts fails. -/
theorem C1_counterexample :
    (appRun fetchConst (fun s => s) dfTwoCols ["A", "B"]).successes.map
        (fun d => (d.column, d.filename)) =
      [("A", "A_001.jpg"), ("B", "B_002.jpg")] ∧
    ((appRun fetchConst (fun s => s) dfTwoCols ["A", "B"]).successes.filter
        (fun d => d.column = "B")).map (fun d => d.filename) ≠ ["B_001.jpg"] := by
  constructor
  · decide
  · decide

/-- C1 as amended.  Successful downloads are numbered 1-based, in
processing order, gap-free — a failed fetch does not consume a number —
in both variants; but only the `api/index.py` variant restarts the
counter per column.  In `app.py` the counter (and hence the numbering
embedded in the filenames through `seq`) is shared across the whole run:
the successes of the entire run, in order, carry the numbers
`1, 2, …, n`.  In `api/index.py` every selected column present in the
table contributes a block of successes appended to the run and numbered
`1, 2, …, k` for that column alone. -/
theorem C1_amended (f : String → Option FetchInfo) (z : String → String)
    (df : DataFrame) (columns : List String) (rows : List (List String)) :
    (∀ cols : List String,
      (appRun f z df cols).successes.map (fun d => d.seq) =
        List.range' 1 (appRun f z df cols).successes.length) ∧
    (∀ (acc : List ApiImage × List String) (col : String), col ∈ columns →
      apiProcessColumn f z columns rows acc col =
        (acc.1 ++ apiColSuccesses f z columns rows col,
         acc.2 ++ apiColErrors f z columns rows col) ∧
      (apiColSuccesses f z columns rows col).map (fun d => d.seq) =
        List.range' 1 (apiColSuccesses f z columns rows col).length ∧
      (∀ d ∈ apiColSuccesses f z columns rows col, d.column = col)) := by
  constructor
  · intro cols
    have h := (appRun_seq_aux f z df cols 0).1
    simpa [appRun] using h
  · intro acc col hcol
    refine ⟨apiProcessColumn_eq f z columns rows acc col, ?_, ?_⟩
    · have hs : apiColSuccesses f z columns rows col =
          (apiColBlockSt f z columns rows col).successes := by
        simp [apiColSuccesses, hcol]
      rw [hs]
      have h := (apiRows_seq f z col (columns.indexOf col) (rows.drop 1) 0).1
      simpa [apiColBlockSt] using h
    · intro d hd
      have hs : apiColSuccesses f z columns rows col =
          (apiColBlockSt f z columns rows col).successes := by
        simp [apiColSuccesses, hcol]
      rw [hs] at hd
      exact (apiRows_seq f z col (columns.indexOf col) (rows.drop 1) 0).2.2 d
        (by simpa [apiColBlockSt] using hd)

/-- Witness for C1 as amended: the api variant's column `"A"` of a
two-row table numbers its one success `1`. -/
theorem C1_amended_witness :
    (apiColSuccesses fetchConst (fun s => s) ["A"] [["A"], ["u"]] "A").map
      (fun d => d.seq) = [1] := by
  have h := (C1_amended fetchConst (fun s => s) dfTwoCols ["A"] [["A"], ["u"]]).2
    ([], []) "A" (by decide)
  exact h.2.1.trans (by decide)

/-! ## Stream event structure -/

/-- Whether an event is the initial start event. -/
def isStartEv : Event → Bool
  | .start _ => true
  | _ => false

/-- Whether an event is the terminal completion event. -/
def isCompleteEv : Event → Bool
  | .complete _ _ => true
  | _ => false

/-- Whether an event delivers an image. -/
def isImageEv : Event → Bool
  | .image _ _ _ _ _ _ => true
  | _ => false

lemma streamCells_spec (f : String → Option FetchInfo) (z : String → String)
    (total : Nat) (col : String) (cells : List String) : ∀ n : Nat,
    ((cells.foldl (streamProcessCell f z total col) ⟨n, [], []⟩).events.countP
      isStartEv = 0) ∧
    ((cells.foldl (streamProcessCell f z total col) ⟨n, [], []⟩).events.countP
      isCompleteEv = 0) ∧
    ((cells.foldl (streamProcessCell f z total col) ⟨n, [], []⟩).count =
      n + (cells.foldl (streamProcessCell f z total col) ⟨n, [], []⟩).events.countP
        isImageEv) := by
  induction cells with
  | nil => intro n; simp
  | cons c cs ih =>
      intro n
      simp only [List.foldl_cons]
      by_cases hb : pytrim c = ""
      · have hstep : streamProcessCell f z total col ⟨n, [], []⟩ c = ⟨n, [], []⟩ := by
          simp [streamProcessCell, hb]
        rw [hstep]
        exact ih n
      · cases hf : f (pytrim c) with
        | some info =>
            have hstep : streamProcessCell f z total col ⟨n, [], []⟩ c =
                ⟨n + 1, [],
                  [Event.progress (n + 1) total col,
                   Event.image col (imageFilename z col (n + 1) info.extension)
                     info.data info.size (n + 1) total]⟩ := by
              simp [streamProcessCell, hb, hf]
            rw [hstep,
              stream_foldl_shift _ (streamProcessCell_count f z total col)
                (streamProcessCell_errors f z total col)
                (streamProcessCell_events f z total col) cs ⟨n + 1, _, _⟩]
            obtain ⟨ih1, ih2, ih3⟩ := ih (n + 1)
            refine ⟨?_, ?_, ?_⟩
            · simp only [List.countP_append, ih1]
              simp [List.countP_cons, isStartEv]
            · simp only [List.countP_append, ih2]
              simp [List.countP_cons, isCompleteEv]
            · simp only [List.countP_append, ih3]
              simp only [List.countP_cons, isImageEv]
              simp [isImageEv]
              omega
        | none =>
            have hstep : streamProcessCell f z total col ⟨n, [], []⟩ c =
                ⟨n, ["Failed to download from " ++ pytrim c],
                  [Event.progress (n + 1) total col,
                   Event.error ("Failed to download from " ++ pytrim c)]⟩ := by
              simp [streamProcessCell, hb, hf]
            rw [hstep,
              stream_foldl_shift _ (streamProcessCell_count f z total col)
                (streamProcessCell_errors f z total col)
                (streamProcessCell_events f z total col) cs ⟨n, _, _⟩]
            obtain ⟨ih1, ih2, ih3⟩ := ih n
            refine ⟨?_, ?_, ?_⟩
            · simp only [List.countP_append, ih1]
              simp [List.countP_cons, isStartEv]
            · simp only [List.countP_append, ih2]
              simp [List.countP_cons, isCompleteEv]
            · simp only [List.countP_append, ih3]
              simp [List.countP_cons, isImageEv]

lemma streamCols_spec (f : String → Option FetchInfo) (z : String → String)
    (df : DataFrame) (total : Nat) (cols : List String) : ∀ n : Nat,
    ((cols.foldl (streamProcessColumn f z df total) ⟨n, [], []⟩).events.countP
      isStartEv = 0) ∧
    ((cols.foldl (streamProcessColumn f z df total) ⟨n, [], []⟩).events.countP
      isCompleteEv = 0) ∧
    ((cols.foldl (streamProcessColumn f z df total) ⟨n, [], []⟩).count =
      n + (cols.foldl (streamProcessColumn f z df total) ⟨n, [], []⟩).events.countP
        isImageEv) := by
  induction cols with
  | nil => intro n; simp
  | cons col cs ih =>
      intro n
      simp only [List.foldl_cons]
      by_cases hc : col ∈ df.columns
      · have hstep : streamProcessColumn f z df total ⟨n, [], []⟩ col =
            (dfDropna df col).foldl (streamProcessCell f z total col) ⟨n, [], []⟩ := by
          simp [streamProcessColumn, hc]
        rw [hstep,
          stream_foldl_shift _ (streamProcessColumn_count f z df total)
            (streamProcessColumn_errors f z df total)
            (streamProcessColumn_events f z df total) cs
            ((dfDropna df col).foldl (streamProcessCell f z total col) ⟨n, [], []⟩)]
        obtain ⟨c1, c2, c3⟩ := streamCells_spec f z total col (dfDropna df col) n
        obtain ⟨r1, r2, r3⟩ :=
          ih ((dfDropna df col).foldl (streamProcessCell f z total col)
            ⟨n, [], []⟩).count
        refine ⟨?_, ?_, ?_⟩
        · simp only [List.countP_append, c1, r1]
        · simp only [List.countP_append, c2, r2]
        · simp only [List.countP_append]
          rw [r3, c3]
          omega
      · have hstep : streamProcessColumn f z df total ⟨n, [], []⟩ col =
            ⟨n, [colNotFoundMsg col], [Event.error (colNotFoundMsg col)]⟩ := by
          simp [streamProcessColumn, hc]
        rw [hstep,
          stream_foldl_shift _ (streamProcessColumn_count f z df total)
            (streamProcessColumn_errors f z df total)
            (streamProcessColumn_events f z df total) cs ⟨n, _, _⟩]
        obtain ⟨r1, r2, r3⟩ := ih n
        refine ⟨?_, ?_, ?_⟩
        · simp only [List.countP_append, r1]
          simp [List.countP_cons, isStartEv]
        · simp only [List.countP_append, r2]
          simp [List.countP_cons, isCompleteEv]
        · simp only [List.countP_append]
          rw [r3]
          simp [List.countP_cons, isImageEv]

lemma generate_stream_eq (f : String → Option FetchInfo) (z : String → String)
    (df : DataFrame) (cols : List String) :
    generate_images_stream f z df cols =
      Event.start (streamTotalCount df cols) ::
      ((cols.foldl (streamProcessColumn f z df (streamTotalCount df cols))
          ⟨0, [], []⟩).events ++
       [Event.complete
         (cols.foldl (streamProcessColumn f z df (streamTotalCount df cols))
           ⟨0, [], []⟩).count
         ((cols.foldl (streamProcessColumn f z df (streamTotalCount df cols))
           ⟨0, [], []⟩).errors.take 10)]) := by
  simp only [generate_images_stream]
  rw [stream_foldl_shift _ (streamProcessColumn_count f z df _)
    (streamProcessColumn_errors f z df _) (streamProcessColumn_events f z df _)
    cols ⟨0, [], [Event.start (streamTotalCount df cols)]⟩]
  simp

/-- C2.  For every streaming run — any fetcher, any sanitizer, any table
and any selected-column list — the event sequence contains exactly one
start event and it is the very first event (hence it precedes every
progress, image and error event); it contains exactly one completion
event and it is the last event; and the completion event's
`total_downloaded` equals the number of image events of the run. -/
theorem C2_stream_events (f : String → Option FetchInfo) (z : String → String)
    (df : DataFrame) (cols : List String) :
    ((generate_images_stream f z df cols).countP isStartEv = 1) ∧
    ((generate_images_stream f z df cols).head? =
      some (Event.start (streamTotalCount df cols))) ∧
    ((generate_images_stream f z df cols).countP isCompleteEv = 1) ∧
    (∃ errs, (generate_images_stream f z df cols).getLast? =
      some (Event.complete
        ((generate_images_stream f z df cols).countP isImageEv) errs)) := by
  have hd := generate_stream_eq f z df cols
  obtain ⟨h1, h2, h3⟩ := streamCols_spec f z df (streamTotalCount df cols) cols 0
  rw [hd]
  refine ⟨?_, ?_, ?_, ?_⟩
  · simp [List.countP_cons, List.countP_append, h1, isStartEv, isCompleteEv]
  · simp
  · simp [List.countP_cons, List.countP_append, h2, isStartEv, isCompleteEv]
  · refine ⟨(cols.foldl (streamProcessColumn f z df (streamTotalCount df cols))
      ⟨0, [], []⟩).errors.take 10, ?_⟩
    have hlast : (Event.start (streamTotalCount df cols) ::
        ((cols.foldl (streamProcessColumn f z df (streamTotalCount df cols))
            ⟨0, [], []⟩).events ++
         [Event.complete
           (cols.foldl (streamProcessColumn f z df (streamTotalCount df cols))
             ⟨0, [], []⟩).count
           ((cols.foldl (streamProcessColumn f z df (streamTotalCount df cols))
             ⟨0, [], []⟩).errors.take 10)])).getLast? =
        some (Event.complete
          (cols.foldl (streamProcessColumn f z df (streamTotalCount df cols))
            ⟨0, [], []⟩).count
          ((cols.foldl (streamProcessColumn f z df (streamTotalCount df cols))
            ⟨0, [], []⟩).errors.take 10)) := by
      rw [← List.cons_append]
      exact List.getLast?_concat _
    rw [hlast]
    have hcount : (Event.start (streamTotalCount df cols) ::
        ((cols.foldl (streamProcessColumn f z df (streamTotalCount df cols))
            ⟨0, [], []⟩).events ++
         [Event.complete
           (cols.foldl (streamProcessColumn f z df (streamTotalCount df cols))
             ⟨0, [], []⟩).count
           ((cols.foldl (streamProcessColumn f z df (streamTotalCount df cols))
             ⟨0, [], []⟩).errors.take 10)])).countP isImageEv =
        (cols.foldl (streamProcessColumn f z df (streamTotalCount df cols))
          ⟨0, [], []⟩).count := by
      rw [h3]
      simp [List.countP_cons, List.countP_append, isImageEv]
    rw [hcount]

/-! ## C8: the start event's total -/

lemma foldl_guard_add {α : Type} (p : α → Prop) [DecidablePred p] (w : α → Nat)
    (l : List α) : ∀ n : Nat,
    l.foldl (fun acc x => if p x then acc + w x else acc) n =
      n + (l.map (fun x => if p x then w x else 0)).sum := by
  induction l with
  | nil => intro n; simp
  | cons x xs ih =>
      intro n
      simp only [List.foldl_cons, List.map_cons, List.sum_cons]
      by_cases hp : p x
      · rw [if_pos hp, if_pos hp, ih (n + w x)]
        omega
      · rw [if_neg hp, if_neg hp, ih n]
        omega

lemma length_filterMap_id {α : Type} (l : List (Option α)) :
    (l.filterMap id).length = l.countP (fun o => o.isSome) := by
  induction l with
  | nil => simp
  | cons a t ih =>
      cases a <;> simp [List.filterMap_cons, List.countP_cons, ih]

lemma streamTotal_eq_nonMissing (df : DataFrame) (cols : List String) :
    streamTotalCount df cols = nonMissingTotal df cols := by
  simp only [streamTotalCount]
  rw [foldl_guard_add (fun col => col ∈ df.columns)
    (fun col => (dfDropna df col).length) cols 0]
  simp only [nonMissingTotal, Nat.zero_add]
  congr 1
  refine List.map_eq_map_iff.mpr ?_
  intro col hcol
  by_cases hc : col ∈ df.columns
  · simp [hc, dfDropna, length_filterMap_id]
  · simp [hc]

/-- A table whose single column holds one whitespace-only (but
non-missing) cell. -/
def dfBlankCell : DataFrame := ⟨["A"], [[some "  "]]⟩

/-- C8 counterexample.  The start event's `total` counts every
non-missing cell — `dropna` removes only missing values — so a
whitespace-only cell is counted even though it is skipped during
iteration: this run announces `total = 1` while the number of non-blank
(trimmed non-empty) target cells is 0. -/
theorem C8_counterexample :
    ((generate_images_stream (fun _ => none) (fun s => s) dfBlankCell
      ["A"]).head? = some (Event.start 1)) ∧
    appQualifyingCount dfBlankCell ["A"] = 0 ∧ (1 : Nat) ≠ 0 := by
  refine ⟨by decide, by decide, by decide⟩

/-- C8 as amended.  The start event's `total` equals the count of
non-missing cells (what `dropna` keeps — blank strings included) across
all selected columns present in the table, not the count of non-blank
cells. -/
theorem C8_amended (f : String → Option FetchInfo) (z : String → String)
    (df : DataFrame) (cols : List String) :
    (generate_images_stream f z df cols).head? =
      some (Event.start (nonMissingTotal df cols)) := by
  rw [generate_stream_eq f z df cols]
  simp [streamTotal_eq_nonMissing]

/-! ## C3: zero qualifying cells -/

lemma appCells_all_blank (f : String → Option FetchInfo) (z : String → String)
    (col : String) (cells : List String)
    (h : ∀ c ∈ cells, pytrim c = "") (st : BatchSt) :
    cells.foldl (appProcessCell f z col) st = st := by
  induction cells generalizing st with
  | nil => rfl
  | cons c cs ih =>
      simp only [List.foldl_cons]
      have hstep : appProcessCell f z col st c = st := by
        simp [appProcessCell, h c (List.mem_cons_self c cs)]
      rw [hstep]
      exact ih (fun c hc => h c (List.mem_cons_of_mem _ hc)) st

lemma appQualifyingCount_eq_sum (df : DataFrame) (cols : List String) :
    appQualifyingCount df cols =
      (cols.map (fun col => if col ∈ df.columns then
        ((dfDropna df col).filter (fun c => pytrim c ≠ "")).length else 0)).sum := by
  simp only [appQualifyingCount]
  rw [foldl_guard_add (fun col => col ∈ df.columns)
    (fun col => ((dfDropna df col).filter (fun c => pytrim c ≠ "")).length) cols 0]
  simp

lemma appRun_blank_successes (f : String → Option FetchInfo) (z : String → String)
    (df : DataFrame) (cols : List String)
    (h : ∀ col ∈ cols, col ∈ df.columns → ∀ c ∈ dfDropna df col, pytrim c = "") :
    ∀ st : BatchSt, (cols.foldl (appProcessColumn f z df) st).successes =
      st.successes := by
  induction cols with
  | nil => intro st; rfl
  | cons col cs ih =>
      intro st
      simp only [List.foldl_cons]
      by_cases hc : col ∈ df.columns
      · have hstep : appProcessColumn f z df st col = st := by
          simp only [appProcessColumn, if_pos hc]
          exact appCells_all_blank f z col (dfDropna df col)
            (h col (List.mem_cons_self col cs) hc) st
        rw [hstep]
        exact ih (fun c hm => h c (List.mem_cons_of_mem _ hm)) st
      · have hstep : appProcessColumn f z df st col =
            { st with errors := st.errors ++ [colNotFoundMsg col] } := by
          simp [appProcessColumn, hc]
        rw [hstep]
        exact ih (fun c hm => h c (List.mem_cons_of_mem _ hm)) _

/-- C3.  When the total number of qualifying cells (non-blank after
trimming, data rows only, over the selected columns present in the table)
is zero, both batch variants return the soft failure
`{success: false, total_images: 0}` with `"Please try different
columns."` — and they do so for every fetcher `f1`/`f2`, so the remote
fetcher is never consulted.  For the dataframe variant the zero-qualifying
hypothesis is `appQualifyingCount`; for the CSV-row variant it is the
source's own pre-count `apiTotalUrls`, which counts exactly the
qualifying cells. -/
theorem C3_zero_qualifying (f1 f2 : String → Option FetchInfo)
    (z1 z2 : String → String) (reg1 : List (String × DataFrame))
    (reg2 : List (String × ApiTable)) (fname : String) (cols : List String)
    (df : DataFrame) (tbl : ApiTable)
    (hf : fname ≠ "") (hcols : cols ≠ [])
    (hreg1 : reg1.lookup fname = some df)
    (hq : appQualifyingCount df cols = 0)
    (hreg2 : reg2.lookup fname = some tbl)
    (ht : apiTotalUrls tbl.columns tbl.rows cols = 0) :
    app_download_images f1 z1 reg1 (some fname) cols "downloads" =
      .ok tryDifferentColumns ∧
    api_download_images f2 z2 reg2 (some fname) cols =
      .ok tryDifferentColumns := by
  have hcond : ¬((some fname : Option String).getD "" = "" ∨ cols = []) := by
    simp [hf, hcols]
  constructor
  · simp only [app_download_images, if_neg hcond]
    rw [if_neg (by simp)]
    simp only [Option.getD_some]
    rw [hreg1]
    have hblank : ∀ col ∈ cols, col ∈ df.columns →
        ∀ c ∈ dfDropna df col, pytrim c = "" := by
      intro col hcol hc c hcm
      rw [appQualifyingCount_eq_sum] at hq
      have hterm := List.sum_eq_zero_iff.mp hq
        (if col ∈ df.columns then
          ((dfDropna df col).filter (fun c => pytrim c ≠ "")).length else 0)
        (List.mem_map_of_mem _ hcol)
      rw [if_pos hc] at hterm
      have hnil := List.length_eq_zero.mp hterm
      have := List.filter_eq_nil_iff.mp hnil c hcm
      simpa using this
    have hsucc : (appRun f1 z1 df cols).successes = [] := by
      simpa [appRun] using appRun_blank_successes f1 z1 df cols hblank ⟨0, [], []⟩
    simp [hsucc]
  · simp only [api_download_images, Option.getD_some, hreg2]
    rw [if_neg (show ¬(fname = "" ∨ cols = []) by simp [hf, hcols])]
    simp [ht]

/-- An uploaded table whose selected column has no data cells, and a
CSV-row table with a header row only. -/
def dfEmptyCol : DataFrame := ⟨["A"], [[]]⟩

/-- Witness for C3: a run over a table with no qualifying cells, under a
fetcher that would succeed on any URL — the outcome is the soft failure
regardless. -/
theorem C3_zero_qualifying_witness :
    app_download_images fetchConst (fun s => s) [("f.csv", dfEmptyCol)]
      (some "f.csv") ["A"] "downloads" = .ok tryDifferentColumns ∧
    api_download_images fetchConst (fun s => s)
      [("f.csv", (⟨["A"], [["A"]]⟩ : ApiTable))] (some "f.csv") ["A"] =
      .ok tryDifferentColumns :=
  C3_zero_qualifying fetchConst fetchConst (fun s => s) (fun s => s)
    [("f.csv", dfEmptyCol)] [("f.csv", (⟨["A"], [["A"]]⟩ : ApiTable))]
    "f.csv" ["A"] dfEmptyCol (⟨["A"], [["A"]]⟩ : ApiTable)
    (by decide) (by decide) (by decide) (by decide) (by decide) (by decide)

/-! ## C4: absent columns are soft errors -/

lemma failedMsg_ne_colMsg (t name : String) :
    "Failed to download from " ++ t ≠ colNotFoundMsg name := by
  intro h
  have hd := congrArg String.data h
  rw [String.data_append] at hd
  simp only [colNotFoundMsg] at hd
  rw [String.data_append, String.data_append] at hd
  have h0 := congrArg List.head? hd
  rw [(by decide : ("Column '").data = 'C' :: "olumn '".data)] at h0
  simp at h0

lemma colNotFoundMsg_inj {a b : String} (h : colNotFoundMsg a = colNotFoundMsg b) :
    a = b := by
  simp only [colNotFoundMsg] at h
  have hd := congrArg String.data h
  rw [String.data_append, String.data_append, String.data_append,
    String.data_append] at hd
  have h1 := List.append_cancel_right hd
  have h2 := List.append_cancel_left h1
  exact String.ext h2

lemma count_colmsg_single (col name : String) :
    List.count (colNotFoundMsg name) [colNotFoundMsg col] =
      if col = name then 1 else 0 := by
  by_cases h : col = name
  · subst h
    simp
  · have hne : colNotFoundMsg col ≠ colNotFoundMsg name :=
      fun hc => h (colNotFoundMsg_inj hc)
    simp [List.count_cons, hne, h]

lemma appCells_errors_colmsg (f : String → Option FetchInfo) (z : String → String)
    (col name : String) (cells : List String) : ∀ n : Nat,
    List.count (colNotFoundMsg name)
      ((cells.foldl (appProcessCell f z col) ⟨n, [], []⟩).errors) = 0 := by
  induction cells with
  | nil => intro n; simp
  | cons c cs ih =>
      intro n
      simp only [List.foldl_cons]
      by_cases hb : pytrim c = ""
      · have hstep : appProcessCell f z col ⟨n, [], []⟩ c = ⟨n, [], []⟩ := by
          simp [appProcessCell, hb]
        rw [hstep]
        exact ih n
      · cases hf : f (pytrim c) with
        | some info =>
            have hstep : appProcessCell f z col ⟨n, [], []⟩ c =
                ⟨n + 1, [⟨col, n + 1, imageFilename z col (n + 1) info.extension,
                  info.size⟩], []⟩ := by
              simp [appProcessCell, hb, hf]
            rw [hstep,
              batch_foldl_shift _ (appProcessCell_count f z col)
                (appProcessCell_successes f z col) (appProcessCell_errors f z col)
                cs ⟨n + 1, _, _⟩]
            simpa using ih (n + 1)
        | none =>
            have hstep : appProcessCell f z col ⟨n, [], []⟩ c =
                ⟨n, [], ["Failed to download from " ++ pytrim c]⟩ := by
              simp [appProcessCell, hb, hf]
            rw [hstep,
              batch_foldl_shift _ (appProcessCell_count f z col)
                (appProcessCell_successes f z col) (appProcessCell_errors f z col)
                cs ⟨n, _, _⟩]
            simp only [List.count_append]
            rw [ih n]
            have hne : "Failed to download from " ++ pytrim c ≠ colNotFoundMsg name :=
              failedMsg_ne_colMsg (pytrim c) name
            simp [List.count_cons, hne]

lemma appCols_errors_colmsg (f : String → Option FetchInfo) (z : String → String)
    (df : DataFrame) (name : String) (hname : name ∉ df.columns)
    (cols : List String) : ∀ n : Nat,
    List.count (colNotFoundMsg name)
      ((cols.foldl (appProcessColumn f z df) ⟨n, [], []⟩).errors) =
      cols.count name := by
  induction cols with
  | nil => intro n; simp
  | cons col cs ih =>
      intro n
      simp only [List.foldl_cons]
      by_cases hc : col ∈ df.columns
      · have hcn : col ≠ name := fun h => hname (h ▸ hc)
        have hstep : appProcessColumn f z df ⟨n, [], []⟩ col =
            (dfDropna df col).foldl (appProcessCell f z col) ⟨n, [], []⟩ := by
          simp [appProcessColumn, hc]
        rw [hstep,
          batch_foldl_shift _ (appProcessColumn_count f z df)
            (appProcessColumn_successes f z df) (appProcessColumn_errors f z df)
            cs ((dfDropna df col).foldl (appProcessCell f z col) ⟨n, [], []⟩)]
        simp only [List.count_append]
        rw [appCells_errors_colmsg f z col name (dfDropna df col) n,
          ih ((dfDropna df col).foldl (appProcessCell f z col) ⟨n, [], []⟩).count,
          List.count_cons]
        simp [hcn]
      · have hstep : appProcessColumn f z df ⟨n, [], []⟩ col =
            ⟨n, [], [colNotFoundMsg col]⟩ := by
          simp [appProcessColumn, hc]
        rw [hstep,
          batch_foldl_shift _ (appProcessColumn_count f z df)
            (appProcessColumn_successes f z df) (appProcessColumn_errors f z df)
            cs ⟨n, _, _⟩]
        simp only [List.count_append]
        rw [ih n]
        by_cases h : col = name
        · subst h
          simp [List.count_cons]
          omega
        · have hne : colNotFoundMsg col ≠ colNotFoundMsg name :=
            fun hc => h (colNotFoundMsg_inj hc)
          simp [List.count_cons, h, hne]

lemma appRun_erase (f : String → Option FetchInfo) (z : String → String)
    (df : DataFrame) (name : String) (hname : name ∉ df.columns)
    (cols : List String) : ∀ st : BatchSt,
    (((cols.erase name).foldl (appProcessColumn f z df) st).successes =
      (cols.foldl (appProcessColumn f z df) st).successes) := by
  induction cols with
  | nil => intro st; rfl
  | cons col cs ih =>
      intro st
      by_cases hcn : col = name
      · subst hcn
        rw [List.erase_cons_head]
        simp only [List.foldl_cons]
        have hstep : appProcessColumn f z df st col =
            { st with errors := st.errors ++ [colNotFoundMsg col] } := by
          simp [appProcessColumn, hname]
        rw [hstep,
          batch_foldl_shift _ (appProcessColumn_count f z df)
            (appProcessColumn_successes f z df) (appProcessColumn_errors f z df)
            cs { st with errors := st.errors ++ [colNotFoundMsg col] },
          batch_foldl_shift _ (appProcessColumn_count f z df)
            (appProcessColumn_successes f z df) (appProcessColumn_errors f z df)
            cs st]
      · rw [List.erase_cons_tail (by simp [hcn])]
        simp only [List.foldl_cons]
        exact ih (appProcessColumn f z df st col)

lemma apiRows_errors_colmsg (f : String → Option FetchInfo) (z : String → String)
    (col : String) (ci : Nat) (name : String) (rows : List (List String)) :
    ∀ n : Nat,
    List.count (colNotFoundMsg name)
      ((rows.foldl (apiProcessRow f z col ci) ⟨n, [], []⟩).errors) = 0 := by
  induction rows with
  | nil => intro n; simp
  | cons row rs ih =>
      intro n
      simp only [List.foldl_cons]
      cases hr : row[ci]? with
      | none =>
          have hstep : apiProcessRow f z col ci ⟨n, [], []⟩ row = ⟨n, [], []⟩ := by
            simp [apiProcessRow, hr]
          rw [hstep]
          exact ih n
      | some cell =>
          by_cases hb : pytrim cell = ""
          · have hstep : apiProcessRow f z col ci ⟨n, [], []⟩ row = ⟨n, [], []⟩ := by
              simp [apiProcessRow, hr, hb]
            rw [hstep]
            exact ih n
          · cases hf : f (pytrim cell) with
            | some info =>
                have hstep : apiProcessRow f z col ci ⟨n, [], []⟩ row =
                    ⟨n + 1, [⟨col, n + 1,
                      imageFilename z col (n + 1) info.extension,
                      info.data, info.extension, info.size⟩], []⟩ := by
                  simp [apiProcessRow, hr, hb, hf]
                rw [hstep,
                  apicol_foldl_shift _ (apiProcessRow_count f z col ci)
                    (apiProcessRow_successes f z col ci)
                    (apiProcessRow_errors f z col ci) rs ⟨n + 1, _, _⟩]
                simpa using ih (n + 1)
            | none =>
                have hstep : apiProcessRow f z col ci ⟨n, [], []⟩ row =
                    ⟨n, [], ["Failed to download from " ++
                      (pyTake50 (pytrim cell) ++ "...")]⟩ := by
                  simp [apiProcessRow, hr, hb, hf]
                rw [hstep,
                  apicol_foldl_shift _ (apiProcessRow_count f z col ci)
                    (apiProcessRow_successes f z col ci)
                    (apiProcessRow_errors f z col ci) rs ⟨n, _, _⟩]
                simp only [List.count_append]
                rw [ih n]
                have hne := failedMsg_ne_colMsg (pyTake50 (pytrim cell) ++ "...") name
                simp [List.count_cons, hne]

lemma apiErr_flatten_colmsg (f : String → Option FetchInfo) (z : String → String)
    (columns : List String) (rows : List (List String)) (name : String)
    (hname : name ∉ columns) (cols : List String) :
    List.count (colNotFoundMsg name)
      ((cols.map (apiColErrors f z columns rows)).flatten) = cols.count name := by
  induction cols with
  | nil => simp
  | cons col cs ih =>
      simp only [List.map_cons, List.flatten_cons, List.count_append, ih,
        List.count_cons]
      by_cases hc : col ∈ columns
      · have hcn : col ≠ name := fun h => hname (h ▸ hc)
        have hE : apiColErrors f z columns rows col =
            (apiColBlockSt f z columns rows col).errors := by
          simp [apiColErrors, hc]
        rw [hE]
        have h0 := apiRows_errors_colmsg f z col (columns.indexOf col) name
          (rows.drop 1) 0
        simp only [apiColBlockSt]
        rw [h0]
        simp [hcn]
      · have hE : apiColErrors f z columns rows col = [colNotFoundMsg col] := by
          simp [apiColErrors, hc]
        rw [hE, count_colmsg_single col name]
        by_cases h : col = name <;> simp [h]
        omega

lemma flatten_map_erase {β : Type} (B : String → List β) (name : String)
    (hB : B name = []) (cols : List String) :
    ((cols.erase name).map B).flatten = (cols.map B).flatten := by
  induction cols with
  | nil => rfl
  | cons col cs ih =>
      by_cases h : col = name
      · subst h
        rw [List.erase_cons_head]
        simp [hB]
      · rw [List.erase_cons_tail (by simp [h])]
        simp [ih]

/-- C4.  A selected column absent from the table yields exactly one soft
error for it — the source message is `"Column '<name>' not found in
file"` — and is never fatal: the successes of the run are exactly those
of the run with the absent column removed from the selection, so every
present column is still processed to completion.  Stated for the batch
loop of both variants, over every fetcher and sanitizer. -/
theorem C4_absent_column (f1 f2 : String → Option FetchInfo)
    (z1 z2 : String → String) (df : DataFrame) (columns : List String)
    (rows : List (List String)) (name : String) (cols : List String)
    (hmem : name ∈ cols) (hcount : cols.count name = 1)
    (habs1 : name ∉ df.columns) (habs2 : name ∉ columns) :
    (List.count (colNotFoundMsg name) (appRun f1 z1 df cols).errors = 1) ∧
    ((appRun f1 z1 df cols).successes =
      (appRun f1 z1 df (cols.erase name)).successes) ∧
    (List.count (colNotFoundMsg name) (apiRun f2 z2 columns rows cols).2 = 1) ∧
    ((apiRun f2 z2 columns rows cols).1 =
      (apiRun f2 z2 columns rows (cols.erase name)).1) := by
  refine ⟨?_, ?_, ?_, ?_⟩
  · have h := appCols_errors_colmsg f1 z1 df name habs1 cols 0
    simpa [appRun, hcount] using h
  · exact (appRun_erase f1 z1 df name habs1 cols ⟨0, [], []⟩).symm
  · have h := apiErr_flatten_colmsg f2 z2 columns rows name habs2 cols
    rw [apiRun, api_run_eq]
    simpa [hcount] using h
  · rw [apiRun, apiRun, api_run_eq, api_run_eq]
    have hB : apiColSuccesses f2 z2 columns rows name = [] := by
      simp [apiColSuccesses, habs2]
    simp [flatten_map_erase (apiColSuccesses f2 z2 columns rows) name hB]

/-- Witness for C4: selection `["Z", "A"]` over tables having only column
`"A"` — the absent `"Z"` records one error and `"A"` is still
processed. -/
theorem C4_absent_column_witness :
    (List.count (colNotFoundMsg "Z")
      (appRun fetchConst (fun s => s) dfTwoCols ["Z", "A"]).errors = 1) ∧
    ((appRun fetchConst (fun s => s) dfTwoCols ["Z", "A"]).successes =
      (appRun fetchConst (fun s => s) dfTwoCols (["Z", "A"].erase "Z")).successes) ∧
    (List.count (colNotFoundMsg "Z")
      (apiRun fetchConst (fun s => s) ["A"] [["A"], ["u"]] ["Z", "A"]).2 = 1) ∧
    ((apiRun fetchConst (fun s => s) ["A"] [["A"], ["u"]] ["Z", "A"]).1 =
      (apiRun fetchConst (fun s => s) ["A"] [["A"], ["u"]]
        (["Z", "A"].erase "Z")).1) :=
  C4_absent_column fetchConst fetchConst (fun s => s) (fun s => s) dfTwoCols
    ["A"] [["A"], ["u"]] "Z" ["Z", "A"] (by decide) (by decide) (by decide)
    (by decide)
